import Mathlib

/-!
Verification development for the NBA data-collection pipeline
(`nba_data_collector.py`).

The script fetches a roster of active players, then runs three sequential
per-player fetch loops (career stats, headline/award stats, scraped salary
history), left-joins the four pandas DataFrames and writes the result to CSV.

We shallowly embed the relevant fragment:
* a pandas `DataFrame` becomes `Table` (a column-name list plus rows of
  optional cells, `none` standing for NaN/null);
* `DataFrame.merge(..., how='left')` becomes `pdLeftMerge`, including the fact
  that pandas raises `KeyError` when a join column is missing from a frame,
  the `_x`/`_y` suffixing of overlapping column names, and the rule that a
  same-named key (`on=` or `left_on == right_on`) appears once in the output;
* `pd.concat(frames, ignore_index=True)` becomes `concatTables`
  (column union in order of first appearance, missing cells null);
* the network is an explicit oracle argument: the stats/awards endpoints are
  `Int → Except String Table` (exception messages as strings), and the salary
  site is `String → Except String SalaryPage` keyed by URL;
* side effects of the loops (printed log lines, `time.sleep(1)` calls,
  `create_session_with_retries()` calls) are counted/collected in the result
  structures.
-/

set_option autoImplicit false

namespace NBA

/-- A scalar cell value of a table: the pipeline only moves strings and
integer ids around (numeric stats stay opaque strings/ints here). -/
inductive Value where
  | str : String → Value
  | int : Int → Value
deriving DecidableEq, Repr

/-- A table row: one optional cell per column, `none` standing for NaN. -/
abbrev Row := List (Option Value)

/-- Shallow embedding of a pandas `DataFrame`: column names plus rows.
`Table.mk [] []` is `pd.DataFrame()` — the empty frame with NO columns. -/
structure Table where
  cols : List String
  rows : List Row
deriving DecidableEq, Repr

/-- Rectangularity: every row has exactly one cell per column.  Real pandas
DataFrames always satisfy this; our oracles are assumed to return such
tables where a claim needs it. -/
def Table.WF (t : Table) : Prop := ∀ r ∈ t.rows, r.length = t.cols.length

instance (t : Table) : Decidable t.WF := by
  unfold Table.WF; infer_instance

/-- `DataFrame.empty`: true iff the frame has no rows or no columns. -/
def Table.isEmpty (t : Table) : Bool := t.rows.isEmpty || t.cols.isEmpty

/-- Index of the first column with the given name (`df.columns.get_loc`-ish);
`none` when the frame has no such column. -/
def colIdx : List String → String → Option Nat
  | [], _ => none
  | c' :: cs, c => if c' = c then some 0 else (colIdx cs c).map (· + 1)

/-- Cell of `row` in column `c` of a frame with columns `cols`:
outer `none` = no such column, inner `none` = null cell. -/
def getCell (cols : List String) (row : Row) (c : String) : Option (Option Value) :=
  (colIdx cols c).map fun i => row.getD i none

/-- `df[c] = v` for a scalar `v`: overwrite the column if present, else append
it on the right, broadcasting `v` to every row. -/
def setColumn (t : Table) (c : String) (v : Option Value) : Table :=
  match colIdx t.cols c with
  | some i => { cols := t.cols, rows := t.rows.map fun r => r.set i v }
  | none => { cols := t.cols ++ [c], rows := t.rows.map fun r => r ++ [v] }

/-- Add the column names of one frame to an accumulated union, keeping first
occurrences only (the column order `pd.concat` produces). -/
def addCols (acc : List String) : List String → List String
  | [] => acc
  | c :: cs => addCols (if acc.contains c then acc else acc ++ [c]) cs

/-- Union of several frames' columns in order of first appearance. -/
def unionCols : List (List String) → List String
  | [] => []
  | l :: ls => unionCols.go (addCols [] l) ls
where go (acc : List String) : List (List String) → List String
  | [] => acc
  | l :: ls => go (addCols acc l) ls

/-- Re-align a row from a frame with columns `oldCols` to the unified column
list `newCols`, filling columns the frame lacks with null. -/
def reindexRow (oldCols newCols : List String) (row : Row) : Row :=
  newCols.map fun c =>
    match colIdx oldCols c with
    | some i => row.getD i none
    | none => none

/-- `pd.concat(frames, ignore_index=True)`: columns are the union in order of
first appearance; every row is re-aligned, absent columns become null. -/
def concatTables (ts : List Table) : Table :=
  let cs := unionCols (ts.map Table.cols)
  { cols := cs, rows := ts.flatMap fun t => t.rows.map (reindexRow t.cols cs) }

/-- `pd.concat(acc, ignore_index=True) if acc else pd.DataFrame()` — the
accumulator finalisation shared by the three fetch loops. -/
def finishTable (acc : List Table) : Table :=
  if acc.isEmpty then ⟨[], []⟩ else concatTables acc

/-- `left.merge(right, left_on=lk, right_on=rk, how='left')`.

* If either key column is missing from its frame, pandas raises
  `KeyError` — modelled as `Except.error`.
* When `lk = rk` (equivalently `on=lk`), the key column appears once in the
  output, with the left frame's values; otherwise both key columns are kept.
* Overlapping non-key column names receive the default suffixes
  `_x` (left) / `_y` (right).
* Row semantics: for every left row, all right rows with an equal key cell
  (pandas matches NaN keys to NaN keys, hence plain `Option Value` equality);
  a left row with no match is padded with nulls — never dropped. -/
def pdLeftMerge (left right : Table) (lk rk : String) : Except String Table :=
  match colIdx left.cols lk, colIdx right.cols rk with
  | none, _ => .error ("KeyError: " ++ lk)
  | some _, none => .error ("KeyError: " ++ rk)
  | some li, some ri =>
    let rcols := if lk = rk then right.cols.eraseIdx ri else right.cols
    let proj : Row → Row := fun r => if lk = rk then r.eraseIdx ri else r
    let lcols2 := left.cols.map fun c => if rcols.contains c then c ++ "_x" else c
    let rcols2 := rcols.map fun c => if left.cols.contains c then c ++ "_y" else c
    .ok { cols := lcols2 ++ rcols2
        , rows := left.rows.flatMap fun lr =>
            match right.rows.filter (fun rr => rr.getD ri none == lr.getD li none) with
            | [] => [lr ++ List.replicate rcols.length none]
            | ms => ms.map fun rr => lr ++ proj rr }

/-- `merge_data(players_df, stats_df, awards_df, salaries_df)`:
three chained left merges —
`players.merge(stats, left_on='id', right_on='player_id', how='left')`,
`.merge(awards, on='player_id', how='left')`,
`.merge(salaries, left_on='full_name', right_on='full_name', how='left')`. -/
def merge_data (players stats awards salaries : Table) : Except String Table :=
  match pdLeftMerge players stats "id" "player_id" with
  | .error e => .error e
  | .ok m1 =>
    match pdLeftMerge m1 awards "player_id" "player_id" with
    | .error e => .error e
    | .ok m2 => pdLeftMerge m2 salaries "full_name" "full_name"

/-- One roster entry as the loops consume it: `player['id']` and
`player['full_name']` (the further roster columns are irrelevant here). -/
structure Player where
  id : Int
  full_name : String
deriving DecidableEq, Repr

/-- The roster DataFrame driving `merge_data` (columns `id`, `full_name`). -/
def playersTable (roster : List Player) : Table :=
  ⟨["id", "full_name"],
   roster.map fun p => [some (.int p.id), some (.str p.full_name)]⟩

/-- Python `s.replace(pat, rep)`: replace every non-overlapping occurrence of
`pat`, scanning left to right.  Fuel-based structural recursion so that the
kernel can evaluate it; `fuel = s.length` always suffices, since every step
consumes at least one character. -/
def pyReplaceFuel (pat rep : List Char) : Nat → List Char → List Char
  | 0, s => s
  | _ + 1, [] => []
  | fuel + 1, c :: cs =>
    if List.take pat.length (c :: cs) = pat ∧ pat ≠ [] then
      rep ++ pyReplaceFuel pat rep fuel (List.drop pat.length (c :: cs))
    else
      c :: pyReplaceFuel pat rep fuel cs

/-- Python `s.replace(pat, rep)` on char lists. -/
def pyReplace (pat rep s : List Char) : List Char :=
  pyReplaceFuel pat rep s.length s

/-- Python `s.lower()`; the roster names are ASCII, for which Lean's
`Char.toLower` coincides with Python's per-character lowering. -/
def pyLower (s : List Char) : List Char := s.map Char.toLower

/-- Python `s.replace(' ', '-')` — a single-character replacement is a map. -/
def hyphenate (s : List Char) : List Char := s.map fun c => if c = ' ' then '-' else c

/-- Python `s.strip()` for the whitespace actually occurring in the pages. -/
def pyStrip (s : List Char) : List Char :=
  ((s.dropWhile Char.isWhitespace).reverse.dropWhile Char.isWhitespace).reverse

/-- Python `s.split(' ')[0]`: the characters before the first space. -/
def headBeforeSpace (s : List Char) : List Char := s.takeWhile (· ≠ ' ')

/-- Python `s.replace(c, '')` for one character: drop every occurrence. -/
def removeChar (c : Char) (s : List Char) : List Char := s.filter (· ≠ c)

/-- The URL slug the scraper builds:
`player_name.replace(' Jr.', '').lower().replace(' ', '-')`. -/
def hoopshypeSlug (name : String) : String :=
  String.mk (hyphenate (pyLower (pyReplace " Jr.".data [] name.data)))

/-- `HOOPSHYPE_PLAYER_URL.format(slug)` applied to the player's name. -/
def salary_url (name : String) : String :=
  "https://hoopshype.com/player/" ++ hoopshypeSlug name ++ "/salary/"

/-- One `<td>` cell of a scraped salary table row: its `class` attribute
(we only care whether it is `table-key`) and its text. -/
structure Cell where
  cls : Option String
  text : String
deriving DecidableEq, Repr

/-- The `<table>` element following the "Past Salaries" label: its `tbody`
(absent `tbody` makes `past_table.tbody.find_all` raise) with its `<tr>`
rows, each a list of `<td>` cells. -/
structure HtmlTable where
  tbody : Option (List (List Cell))
deriving DecidableEq, Repr

/-- What the scraper inspects in a fetched salary page: whether a `<span>`
with string "Past Salaries" exists, and if so, the next `<table>` (if any). -/
structure SalaryPage where
  pastLabel : Bool
  tableAfterLabel : Option HtmlTable
deriving DecidableEq, Repr

/-- One parsed salary record, `{'season': ..., 'salary': ...}`,
both raw strings. -/
structure SalaryRec where
  season : String
  salary : String
deriving DecidableEq, Repr

/-- `row.find('td', {'class': 'table-key'}).text.strip()` — `AttributeError`
when no cell carries the class. -/
def parseSeason (cells : List Cell) : Except String String :=
  match cells.find? (fun c => c.cls == some "table-key") with
  | none => .error "AttributeError: NoneType object has no attribute text"
  | some kc => .ok (String.mk (pyStrip kc.text.data))

/-- `row.find_all('td')[2].text.strip().split(' ')[0].replace('$', '')
.replace(',', '')` — `IndexError` when the row has fewer than three cells. -/
def parseSalary (cells : List Cell) : Except String String :=
  match cells[2]? with
  | none => .error "IndexError: list index out of range"
  | some c3 =>
    .ok (String.mk (removeChar ',' (removeChar '$'
          (headBeforeSpace (pyStrip c3.text.data)))))

/-- The `for row in past_table.tbody.find_all('tr')` loop body: parse every
row in order, aborting at the first raising row. -/
def parseSalaryRows : List (List Cell) → Except String (List SalaryRec)
  | [] => .ok []
  | r :: rs => do
    let season ← parseSeason r
    let salary ← parseSalary r
    let rest ← parseSalaryRows rs
    .ok ({ season := season, salary := salary } :: rest)

/-- `pd.DataFrame(all_salaries)`: list of dicts — columns from the dict keys
when non-empty, the no-column empty frame when the list is empty. -/
def salaryRecsTable (recs : List SalaryRec) : Table :=
  if recs.isEmpty then ⟨[], []⟩
  else ⟨["season", "salary"],
        recs.map fun r => [some (.str r.season), some (.str r.salary)]⟩

/-- Log lines printed and outcome of `fetch_player_salaries` after the page
came back (or the GET raised). -/
def fetch_player_salaries_body (page : Except String SalaryPage)
    (player_name : String) : List String × Except String Table :=
  match page with
  | .error e => ([], .error e)
  | .ok pg =>
    if pg.pastLabel then
      match pg.tableAfterLabel with
      | none =>
        (["Past salaries table not found for player " ++ player_name],
         .ok ⟨[], []⟩)
      | some ht =>
        match ht.tbody with
        | none => ([], .error "AttributeError: NoneType object has no attribute find_all")
        | some trs =>
          match parseSalaryRows trs with
          | .error e => ([], .error e)
          | .ok recs => ([], .ok (salaryRecsTable recs))
    else ([], .error "AttributeError: NoneType object has no attribute find_next")

deriving instance DecidableEq for Except

/-- Result of one `fetch_player_salaries` call: how many retrying sessions it
created, what it printed, and the returned frame or the raised exception. -/
structure SalaryFetch where
  sessions : Nat
  logs : List String
  result : Except String Table
deriving DecidableEq, Repr

/-- `fetch_player_salaries(player_name)`: creates a fresh
`create_session_with_retries()` session (counted), GETs the slug URL through
the oracle `web`, finds the "Past Salaries" span, the following table and its
body rows, and parses them.  A missing span or missing `tbody` raises
(`AttributeError`); a present span with no following table logs and returns
the empty frame. -/
def fetch_player_salaries (web : String → Except String SalaryPage)
    (player_name : String) : SalaryFetch :=
  let b := fetch_player_salaries_body (web (salary_url player_name)) player_name
  ⟨1, b.1, b.2⟩

/-- Accumulated state of one of the three per-player fetch loops. -/
structure LoopAcc where
  acc : List Table
  logs : List String
  sleeps : Nat
  sessions : Nat
deriving DecidableEq, Repr

/-- Final result of a `fetch_all_player_*` function: the returned frame
plus the observable side effects of the loop. -/
structure FetchAllResult where
  table : Table
  logs : List String
  sleeps : Nat
  sessions : Nat
deriving DecidableEq, Repr

/-- The loop shared verbatim (modulo the endpoint and the word in the log
message) by `fetch_all_player_stats` and `fetch_all_player_awards`:

    for _, player in players_df.iterrows():
        try:
            t = fetch(player['id'])
            if not t.empty:
                t['player_id'] = player['id']
                acc.append(t)
            time.sleep(1)
        except Exception as e:
            print(f"Failed to fetch VERB for player NAME: e")

Note the `time.sleep(1)` sits INSIDE the `try`, after the append: an
exception skips the sleep for that player. -/
def idLoopGo (verb : String) (fetch : Int → Except String Table) :
    List Player → LoopAcc
  | [] => ⟨[], [], 0, 0⟩
  | p :: ps =>
    let rest := idLoopGo verb fetch ps
    match fetch p.id with
    | .ok t =>
      { acc := (if t.isEmpty then []
                else [setColumn t "player_id" (some (.int p.id))]) ++ rest.acc
        logs := rest.logs
        sleeps := rest.sleeps + 1
        sessions := rest.sessions }
    | .error e =>
      { acc := rest.acc
        logs := ("Failed to fetch " ++ verb ++ " for player " ++ p.full_name
                  ++ ": " ++ e) :: rest.logs
        sleeps := rest.sleeps
        sessions := rest.sessions }

/-- `fetch_all_player_stats(players_df)` with the stats endpoint as oracle. -/
def fetch_all_player_stats (fetch : Int → Except String Table)
    (roster : List Player) : FetchAllResult :=
  let g := idLoopGo "stats" fetch roster
  ⟨finishTable g.acc, g.logs, g.sleeps, g.sessions⟩

/-- `fetch_all_player_awards(players_df)` with the headline-stats endpoint as
oracle. -/
def fetch_all_player_awards (fetch : Int → Except String Table)
    (roster : List Player) : FetchAllResult :=
  let g := idLoopGo "awards" fetch roster
  ⟨finishTable g.acc, g.logs, g.sleeps, g.sessions⟩

/-- The salary loop: like `idLoopGo` but calling `fetch_player_salaries` on
`player['full_name']`, tagging appended frames with a `full_name` column and
accounting for sessions created inside the per-player call. -/
def salariesGo (web : String → Except String SalaryPage) :
    List Player → LoopAcc
  | [] => ⟨[], [], 0, 0⟩
  | p :: ps =>
    let f := fetch_player_salaries web p.full_name
    let rest := salariesGo web ps
    match f.result with
    | .ok t =>
      { acc := (if t.isEmpty then []
                else [setColumn t "full_name" (some (.str p.full_name))]) ++ rest.acc
        logs := f.logs ++ rest.logs
        sleeps := rest.sleeps + 1
        sessions := f.sessions + rest.sessions }
    | .error e =>
      { acc := rest.acc
        logs := f.logs ++ ("Failed to fetch salaries for player " ++ p.full_name
                  ++ ": " ++ e) :: rest.logs
        sleeps := rest.sleeps
        sessions := f.sessions + rest.sessions }

/-- `fetch_all_player_salaries(players_df)` with the salary site as oracle. -/
def fetch_all_player_salaries (web : String → Except String SalaryPage)
    (roster : List Player) : FetchAllResult :=
  let g := salariesGo web roster
  ⟨finishTable g.acc, g.logs, g.sleeps, g.sessions⟩

/-- The merge step of `main()`: merge the roster frame with the three frames
produced by the fetch loops. -/
def pipeline_merged (fetchS fetchA : Int → Except String Table)
    (web : String → Except String SalaryPage)
    (roster : List Player) : Except String Table :=
  merge_data (playersTable roster)
    (fetch_all_player_stats fetchS roster).table
    (fetch_all_player_awards fetchA roster).table
    (fetch_all_player_salaries web roster).table

/-- Whether a per-player fetch completed without raising. -/
def okB : Except String Table → Bool
  | .ok _ => true
  | .error _ => false

/-- Modelled from the spec's words for the slug ("strip the suffix ' Jr.' if
present"): remove `" Jr."` only when it is a suffix of the name. -/
def stripSuffixJr (s : List Char) : List Char :=
  if s.drop (s.length - 4) = " Jr.".data then s.take (s.length - 4) else s

/-- The claim's slug derivation, word for word: strip the suffix `" Jr."` if
present, lowercase, replace spaces with hyphens. -/
def slugSpecSuffix (name : String) : String :=
  String.mk (hyphenate (pyLower (stripSuffixJr name.data)))

/-- Split a char list at every non-overlapping occurrence of `pat`,
discarding the occurrences (same fuel discipline as `pyReplaceFuel`). -/
def splitOnPat (pat : List Char) : Nat → List Char → List (List Char)
  | 0, s => [s]
  | _ + 1, [] => [[]]
  | fuel + 1, c :: cs =>
    if List.take pat.length (c :: cs) = pat ∧ pat ≠ [] then
      [] :: splitOnPat pat fuel (List.drop pat.length (c :: cs))
    else
      match splitOnPat pat fuel cs with
      | [] => [[c]]
      | h :: t => (c :: h) :: t

/-- Concatenate the pieces of a split. -/
def joinAll : List (List Char) → List Char
  | [] => []
  | h :: t => h ++ joinAll t

/-- The amended slug derivation: the name with EVERY occurrence of `" Jr."`
removed (split on the pattern, discard it, join the pieces), lowercased,
spaces hyphenated. -/
def slugAllOccurrences (name : String) : String :=
  String.mk (hyphenate (pyLower
    (joinAll (splitOnPat " Jr.".data name.data.length name.data))))

/-! Concrete inputs used by counterexamples, code-bug evaluations and
witnesses. -/

def c1Roster : List Player := [⟨1, "A B"⟩]

/-- A stats endpoint that succeeds with an empty-but-typed result for every
player, so that no player yields rows. -/
def c1StatsFetcher : Int → Except String Table := fun _ => .ok ⟨["PTS"], []⟩

def c1Awards : Table := ⟨["player_id", "HS"], [[some (.int 1), some (.str "x")]]⟩

def c1Salaries : Table := ⟨["full_name", "salary"], [[some (.str "A B"), some (.str "1")]]⟩

def c2Roster : List Player := [⟨1, "A B"⟩, ⟨2, "C D"⟩]

/-- Stats source of the end-to-end scenario: rows only for player id 1. -/
def c2FetchS : Int → Except String Table := fun i =>
  if i = 1 then .ok ⟨["PTS"], [[some (.int 30)]]⟩ else .ok ⟨["PTS"], []⟩

/-- Awards source of the end-to-end scenario: rows for neither player. -/
def c2FetchA : Int → Except String Table := fun _ => .ok ⟨["HS"], []⟩

/-- Salary site of the end-to-end scenario: one salary row for "C D" only. -/
def c2Web : String → Except String SalaryPage := fun u =>
  if u = salary_url "C D" then
    .ok ⟨true, some ⟨some [[⟨some "table-key", "2021-22"⟩, ⟨none, ""⟩,
                            ⟨none, "$1,234,567 (total)"⟩]]⟩⟩
  else .ok ⟨true, some ⟨some []⟩⟩

/-- A salary page with no "Past Salaries" label at all. -/
def c3NoLabelWeb : String → Except String SalaryPage := fun _ => .ok ⟨false, none⟩

/-- A salary page whose "Past Salaries" label has no table after it. -/
def c3LabelNoTableWeb : String → Except String SalaryPage := fun _ => .ok ⟨true, none⟩

def c4Xs : List Player := [⟨1, "A B"⟩]
def c4Ys : List Player := [⟨2, "C D"⟩]
def c4P : Player := ⟨7, "E F"⟩

def c4FetchS : Int → Except String Table := fun i =>
  if i = 7 then .error "boom" else .ok ⟨["PTS"], [[some (.int 5)]]⟩

def c4FetchA : Int → Except String Table := fun i =>
  if i = 7 then .error "bam" else .ok ⟨["HS"], [[some (.str "y")]]⟩

def c4Web : String → Except String SalaryPage := fun u =>
  if u = salary_url "E F" then .error "neterr" else .ok ⟨true, none⟩

def c5Players : Table := ⟨["id", "full_name"], [[some (.int 3), some (.str "E F")]]⟩
def c5Awards : Table := ⟨["player_id"], []⟩
def c5Salaries : Table := ⟨["full_name"], []⟩

def c5wPlayers : Table := ⟨["id", "full_name"], [[some (.int 3), some (.str "E F")]]⟩
def c5wStats : Table := ⟨["player_id"], []⟩
def c5wAwards : Table := ⟨["player_id"], []⟩
def c5wSalaries : Table := ⟨["full_name"], []⟩
def c5wMerged : Table :=
  ⟨["id", "full_name", "player_id"], [[some (.int 3), some (.str "E F"), none]]⟩

def c6Roster : List Player := [⟨1, "A B"⟩]
def c6Fetcher : Int → Except String Table := fun _ => .error "boom"

def c8Web : String → Except String SalaryPage := fun _ =>
  .ok ⟨true, some ⟨some [[⟨some "table-key", "2021-22"⟩, ⟨none, ""⟩,
                          ⟨none, "$1,234,567 (total)"⟩]]⟩⟩

def c9Roster : List Player := [⟨1, "A B"⟩, ⟨2, "C D"⟩]
def c9Web : String → Except String SalaryPage := fun _ => .ok ⟨true, none⟩

def c10Roster : List Player := [⟨1, "A B"⟩, ⟨2, "C D"⟩]
def c10FetchS : Int → Except String Table := fun _ => .ok ⟨["PTS"], [[some (.int 9)]]⟩
def c10FetchA : Int → Except String Table := fun _ => .ok ⟨["HS"], [[some (.str "y")]]⟩
def c10Web : String → Except String SalaryPage := fun _ =>
  .ok ⟨true, some ⟨some [[⟨some "table-key", "2021-22"⟩, ⟨none, ""⟩,
                          ⟨none, "$5 x"⟩]]⟩⟩

/-! Theorems. -/

/-- C1: when no player yields rows the accumulator function does return a
non-null empty frame — but it is `pd.DataFrame()` with NO columns, and
`merge_data` applied to it does NOT behave as a no-op match: the first merge
looks up the join column `player_id` in the empty frame and raises
`KeyError`.  Evaluated here at a one-player roster whose stats endpoint
succeeds with zero rows. -/
theorem c1_empty_source_table_breaks_merge :
    (fetch_all_player_stats c1StatsFetcher c1Roster).table = ⟨[], []⟩
    ∧ merge_data (playersTable c1Roster) ⟨[], []⟩ c1Awards c1Salaries
        = .error "KeyError: player_id" := by
  decide

/-- C2: the end-to-end scenario (stats only for id 1, awards for neither,
salary only for "C D") does NOT produce a 2-row merged table: because the
awards accumulator is the no-column `pd.DataFrame()`, the second merge of
`merge_data` raises `KeyError: player_id` and the pipeline dies. -/
theorem c2_scenario_merge_raises :
    (fetch_all_player_awards c2FetchA c2Roster).table = ⟨[], []⟩
    ∧ pipeline_merged c2FetchS c2FetchA c2Web c2Roster
        = .error "KeyError: player_id" := by
  decide

/-- C3, counterexample: a fetched salary page in which the "Past Salaries"
table is absent because the label span itself is absent makes
`fetch_player_salaries` raise (`.find_next` on `None`), with no "table not
found" log and no empty result — refuting "for every fetched salary page in
which the table is absent ... it does not raise an exception". -/
theorem c3_missing_label_raises :
    fetch_player_salaries c3NoLabelWeb "X"
      = ⟨1, [], .error "AttributeError: NoneType object has no attribute find_next"⟩ := by
  decide

/-- C3, amended: when the "Past Salaries" LABEL is present but no table
follows it, `fetch_player_salaries` logs the "table not found" message and
returns an empty frame without raising. -/
theorem c3_label_without_table_logs_and_returns_empty :
    ∀ (web : String → Except String SalaryPage) (name : String) (pg : SalaryPage),
      web (salary_url name) = .ok pg → pg.pastLabel = true →
      pg.tableAfterLabel = none →
      fetch_player_salaries web name
        = ⟨1, ["Past salaries table not found for player " ++ name], .ok ⟨[], []⟩⟩ := by
  intro web name pg hw hl ht
  simp [fetch_player_salaries, fetch_player_salaries_body, hw, hl, ht]

/-- C3, witness: the amended theorem applied to a concrete page carrying the
label but no table. -/
theorem c3_witness :
    fetch_player_salaries c3LabelNoTableWeb "James Harden"
      = ⟨1, ["Past salaries table not found for player " ++ "James Harden"],
         .ok ⟨[], []⟩⟩ :=
  c3_label_without_table_logs_and_returns_empty c3LabelNoTableWeb "James Harden"
    ⟨true, none⟩ rfl rfl rfl

/-- C6, counterexample: a roster of one player whose fetch raises performs
ZERO sleeps, not one — the `time.sleep(1)` sits inside the `try` after the
fetch, so an exception skips it, refuting "a fixed 1-second sleep occurs
after every player's fetch attempt regardless of outcome". -/
theorem c6_no_sleep_on_exception :
    (fetch_all_player_stats c6Fetcher c6Roster).sleeps = 0
    ∧ c6Roster.length = 1 := by
  decide

/-- C7, counterexample: on a name with an interior `" Jr."` the code and the
claimed suffix-stripping derivation disagree — the code removes the interior
occurrence too. -/
theorem c7_internal_jr_not_suffix_only :
    hoopshypeSlug "A Jr. B" = "a-b"
    ∧ slugSpecSuffix "A Jr. B" = "a-jr.-b"
    ∧ hoopshypeSlug "A Jr. B" ≠ slugSpecSuffix "A Jr. B" := by
  decide

/-- C8: a body row whose key cell holds "2021-22" and whose third cell holds
"$1,234,567 (total)" parses to season "2021-22" and salary "1234567" (raw
strings), through the whole of `fetch_player_salaries`. -/
theorem c8_salary_row_parsing :
    fetch_player_salaries c8Web "P Q"
      = ⟨1, [], .ok ⟨["season", "salary"],
          [[some (.str "2021-22"), some (.str "1234567")]]⟩⟩ := by
  decide

/-- C9, counterexample: a run of `fetch_all_player_salaries` over two players
creates TWO retrying sessions — `create_session_with_retries()` is called
inside every per-player fetch — refuting "no more than one such client is
ever created". -/
theorem c9_session_per_player_not_single :
    (fetch_all_player_salaries c9Web c9Roster).sessions = 2
    ∧ c9Roster.length = 2 := by
  decide

theorem idLoopGo_sleeps (v : String) (f : Int → Except String Table)
    (roster : List Player) :
    (idLoopGo v f roster).sleeps
      = (roster.filter fun p => okB (f p.id)).length := by
  induction roster with
  | nil => rfl
  | cons p ps ih =>
    cases h : f p.id <;> simp [idLoopGo, h, okB, List.filter_cons, ih]

theorem salariesGo_sleeps (web : String → Except String SalaryPage)
    (roster : List Player) :
    (salariesGo web roster).sleeps
      = (roster.filter fun p =>
          okB (fetch_player_salaries web p.full_name).result).length := by
  induction roster with
  | nil => rfl
  | cons p ps ih =>
    cases h : (fetch_player_salaries web p.full_name).result <;>
      simp [salariesGo, h, okB, List.filter_cons, ih]

/-- C6, amended: in each of the three per-player loops the 1-second sleep
happens exactly once per player whose fetch did NOT raise (even with an
empty result); a player whose fetch raises contributes no sleep, because the
`time.sleep(1)` is inside the `try` block. -/
theorem c6_sleep_only_after_success :
    ∀ (fetchS fetchA : Int → Except String Table)
      (web : String → Except String SalaryPage) (roster : List Player),
      (fetch_all_player_stats fetchS roster).sleeps
          = (roster.filter fun p => okB (fetchS p.id)).length
      ∧ (fetch_all_player_awards fetchA roster).sleeps
          = (roster.filter fun p => okB (fetchA p.id)).length
      ∧ (fetch_all_player_salaries web roster).sleeps
          = (roster.filter fun p =>
              okB (fetch_player_salaries web p.full_name).result).length := by
  intro fS fA web roster
  exact ⟨idLoopGo_sleeps _ _ _, idLoopGo_sleeps _ _ _, salariesGo_sleeps _ _⟩

theorem fetch_player_salaries_sessions (web : String → Except String SalaryPage)
    (n : String) : (fetch_player_salaries web n).sessions = 1 := rfl

theorem salariesGo_sessions (web : String → Except String SalaryPage)
    (roster : List Player) :
    (salariesGo web roster).sessions = roster.length := by
  induction roster with
  | nil => rfl
  | cons p ps ih =>
    cases h : (fetch_player_salaries web p.full_name).result <;>
      simp [salariesGo, h, ih, fetch_player_salaries_sessions] <;> omega

/-- C9, amended: `fetch_player_salaries` calls
`create_session_with_retries()` itself, so a full run of
`fetch_all_player_salaries` creates exactly one retrying session PER ROSTER
PLAYER (even for players whose page fetch raises) — the client is neither
shared across players nor acquired once per run. -/
theorem c9_new_session_every_player :
    ∀ (web : String → Except String SalaryPage) (roster : List Player),
      (fetch_all_player_salaries web roster).sessions = roster.length := by
  intro web roster
  exact salariesGo_sessions web roster

theorem idLoopGo_append (v : String) (f : Int → Except String Table)
    (xs ys : List Player) :
    idLoopGo v f (xs ++ ys)
      = ⟨(idLoopGo v f xs).acc ++ (idLoopGo v f ys).acc,
         (idLoopGo v f xs).logs ++ (idLoopGo v f ys).logs,
         (idLoopGo v f xs).sleeps + (idLoopGo v f ys).sleeps,
         (idLoopGo v f xs).sessions + (idLoopGo v f ys).sessions⟩ := by
  induction xs with
  | nil => simp [idLoopGo]
  | cons p ps ih =>
    cases h : f p.id <;>
      simp [idLoopGo, h, ih, LoopAcc.mk.injEq, List.append_assoc] <;> omega

theorem salariesGo_append (web : String → Except String SalaryPage)
    (xs ys : List Player) :
    salariesGo web (xs ++ ys)
      = ⟨(salariesGo web xs).acc ++ (salariesGo web ys).acc,
         (salariesGo web xs).logs ++ (salariesGo web ys).logs,
         (salariesGo web xs).sleeps + (salariesGo web ys).sleeps,
         (salariesGo web xs).sessions + (salariesGo web ys).sessions⟩ := by
  induction xs with
  | nil => simp [salariesGo]
  | cons p ps ih =>
    cases h : (fetch_player_salaries web p.full_name).result <;>
      simp [salariesGo, h, ih, LoopAcc.mk.injEq, List.append_assoc] <;> omega

theorem fetch_player_salaries_of_web_error
    (web : String → Except String SalaryPage) (n e : String)
    (h : web (salary_url n) = .error e) :
    fetch_player_salaries web n = ⟨1, [], .error e⟩ := by
  simp [fetch_player_salaries, fetch_player_salaries_body, h]

/-- C4: a player whose per-player fetch raises, in any of the three loops,
is logged with a message carrying the player's name and the error text, and
the run's result table is the one of the roster WITHOUT that player — the
player contributes no rows at all, and the loop still processes everyone
else. -/
theorem c4_fetch_error_logged_and_player_skipped :
    ∀ (fetchS fetchA : Int → Except String Table)
      (web : String → Except String SalaryPage)
      (xs ys : List Player) (p : Player) (eS eA eW : String),
      fetchS p.id = .error eS →
      fetchA p.id = .error eA →
      web (salary_url p.full_name) = .error eW →
      ((fetch_all_player_stats fetchS (xs ++ p :: ys)).logs
          = (fetch_all_player_stats fetchS xs).logs
            ++ ("Failed to fetch stats for player " ++ p.full_name ++ ": " ++ eS)
               :: (fetch_all_player_stats fetchS ys).logs
        ∧ (fetch_all_player_stats fetchS (xs ++ p :: ys)).table
            = (fetch_all_player_stats fetchS (xs ++ ys)).table)
      ∧ ((fetch_all_player_awards fetchA (xs ++ p :: ys)).logs
          = (fetch_all_player_awards fetchA xs).logs
            ++ ("Failed to fetch awards for player " ++ p.full_name ++ ": " ++ eA)
               :: (fetch_all_player_awards fetchA ys).logs
        ∧ (fetch_all_player_awards fetchA (xs ++ p :: ys)).table
            = (fetch_all_player_awards fetchA (xs ++ ys)).table)
      ∧ ((fetch_all_player_salaries web (xs ++ p :: ys)).logs
          = (fetch_all_player_salaries web xs).logs
            ++ ("Failed to fetch salaries for player " ++ p.full_name ++ ": " ++ eW)
               :: (fetch_all_player_salaries web ys).logs
        ∧ (fetch_all_player_salaries web (xs ++ p :: ys)).table
            = (fetch_all_player_salaries web (xs ++ ys)).table) := by
  intro fS fA web xs ys p eS eA eW hS hA hW
  refine ⟨⟨?_, ?_⟩, ⟨?_, ?_⟩, ⟨?_, ?_⟩⟩
  · show (idLoopGo "stats" fS (xs ++ p :: ys)).logs = _
    rw [idLoopGo_append]
    simp [idLoopGo, hS]
    rfl
  · show finishTable (idLoopGo "stats" fS (xs ++ p :: ys)).acc
      = finishTable (idLoopGo "stats" fS (xs ++ ys)).acc
    rw [idLoopGo_append, idLoopGo_append]
    simp [idLoopGo, hS]
  · show (idLoopGo "awards" fA (xs ++ p :: ys)).logs = _
    rw [idLoopGo_append]
    simp [idLoopGo, hA]
    rfl
  · show finishTable (idLoopGo "awards" fA (xs ++ p :: ys)).acc
      = finishTable (idLoopGo "awards" fA (xs ++ ys)).acc
    rw [idLoopGo_append, idLoopGo_append]
    simp [idLoopGo, hA]
  · show (salariesGo web (xs ++ p :: ys)).logs = _
    rw [salariesGo_append]
    simp [salariesGo, fetch_player_salaries_of_web_error web _ _ hW]
    rfl
  · show finishTable (salariesGo web (xs ++ p :: ys)).acc
      = finishTable (salariesGo web (xs ++ ys)).acc
    rw [salariesGo_append, salariesGo_append]
    simp [salariesGo, fetch_player_salaries_of_web_error web _ _ hW]

/-- C4, witness: the theorem applied to a three-player roster whose middle
player's fetches all raise. -/
theorem c4_witness :
    ((fetch_all_player_stats c4FetchS (c4Xs ++ c4P :: c4Ys)).logs
        = (fetch_all_player_stats c4FetchS c4Xs).logs
          ++ ("Failed to fetch stats for player " ++ c4P.full_name ++ ": " ++ "boom")
             :: (fetch_all_player_stats c4FetchS c4Ys).logs
      ∧ (fetch_all_player_stats c4FetchS (c4Xs ++ c4P :: c4Ys)).table
          = (fetch_all_player_stats c4FetchS (c4Xs ++ c4Ys)).table)
    ∧ ((fetch_all_player_awards c4FetchA (c4Xs ++ c4P :: c4Ys)).logs
        = (fetch_all_player_awards c4FetchA c4Xs).logs
          ++ ("Failed to fetch awards for player " ++ c4P.full_name ++ ": " ++ "bam")
             :: (fetch_all_player_awards c4FetchA c4Ys).logs
      ∧ (fetch_all_player_awards c4FetchA (c4Xs ++ c4P :: c4Ys)).table
          = (fetch_all_player_awards c4FetchA (c4Xs ++ c4Ys)).table)
    ∧ ((fetch_all_player_salaries c4Web (c4Xs ++ c4P :: c4Ys)).logs
        = (fetch_all_player_salaries c4Web c4Xs).logs
          ++ ("Failed to fetch salaries for player " ++ c4P.full_name ++ ": " ++ "neterr")
             :: (fetch_all_player_salaries c4Web c4Ys).logs
      ∧ (fetch_all_player_salaries c4Web (c4Xs ++ c4P :: c4Ys)).table
          = (fetch_all_player_salaries c4Web (c4Xs ++ c4Ys)).table) :=
  c4_fetch_error_logged_and_player_skipped c4FetchS c4FetchA c4Web
    c4Xs c4Ys c4P "boom" "bam" "neterr" (by decide) (by decide) (by decide)

theorem pdLeftMerge_row_prefix (l rt : Table) (lk rk : String) (t : Table)
    (h : pdLeftMerge l rt lk rk = .ok t) :
    ∀ lr ∈ l.rows, ∃ out ∈ t.rows, ∃ rest, out = lr ++ rest := by
  intro lr hlr
  cases h1 : colIdx l.cols lk with
  | none => simp [pdLeftMerge, h1] at h
  | some li =>
    cases h2 : colIdx rt.cols rk with
    | none => simp [pdLeftMerge, h1, h2] at h
    | some ri =>
      simp only [pdLeftMerge, h1, h2, Except.ok.injEq] at h
      subst h
      cases hms : rt.rows.filter (fun rr => rr.getD ri none == lr.getD li none) with
      | nil =>
        refine ⟨lr ++ List.replicate (if lk = rk then rt.cols.eraseIdx ri
            else rt.cols).length none, ?_, _, rfl⟩
        rw [List.mem_flatMap]
        exact ⟨lr, hlr, by rw [hms]; exact List.mem_singleton_self _⟩
      | cons rr ms =>
        refine ⟨lr ++ (if lk = rk then rr.eraseIdx ri else rr), ?_, _, rfl⟩
        rw [List.mem_flatMap]
        refine ⟨lr, hlr, ?_⟩
        rw [hms]
        exact List.mem_map_of_mem _ (List.mem_cons_self rr ms)

/-- C5, counterexample: there are stats/awards/salary table contents — the
no-column empty frame a row-less source produces — for which the merged
output does not contain a row per roster player: `merge_data` raises instead
of producing any output. -/
theorem c5_empty_stats_table_no_output :
    merge_data c5Players ⟨[], []⟩ c5Awards c5Salaries
      = .error "KeyError: player_id" := by
  decide

/-- C5, amended: whenever the three merges succeed (in particular whenever
each right-hand table carries its join column), every roster player's row is
preserved as a prefix of at least one merged row — players with no
stats/awards/salary match are padded with nulls by the merge, never
dropped. -/
theorem c5_left_join_preserves_players :
    ∀ (players stats awards salaries m : Table),
      merge_data players stats awards salaries = .ok m →
      ∀ r ∈ players.rows, ∃ out ∈ m.rows, out.take r.length = r := by
  intro ps st aw sal m h r hr
  cases e1 : pdLeftMerge ps st "id" "player_id" with
  | error e => simp [merge_data, e1] at h
  | ok m1 =>
    simp only [merge_data, e1] at h
    cases e2 : pdLeftMerge m1 aw "player_id" "player_id" with
    | error e => simp [e2] at h
    | ok m2 =>
      simp only [e2] at h
      obtain ⟨o1, ho1, r1, rfl⟩ := pdLeftMerge_row_prefix _ _ _ _ _ e1 r hr
      obtain ⟨o2, ho2, r2, rfl⟩ := pdLeftMerge_row_prefix _ _ _ _ _ e2 _ ho1
      obtain ⟨o3, ho3, r3, rfl⟩ := pdLeftMerge_row_prefix _ _ _ _ _ h _ ho2
      refine ⟨_, ho3, ?_⟩
      rw [List.append_assoc, List.append_assoc]
      exact List.take_left _ _

/-- C5, witness: the amended theorem applied to a concrete roster frame,
three key-carrying but row-less tables, and the roster's one row. -/
theorem c5_witness :
    ∃ out ∈ c5wMerged.rows,
      out.take ([some (.int 3), some (.str "E F")] : Row).length
        = ([some (.int 3), some (.str "E F")] : Row) :=
  c5_left_join_preserves_players c5wPlayers c5wStats c5wAwards c5wSalaries
    c5wMerged (by decide) [some (.int 3), some (.str "E F")] (by decide)

theorem pyReplaceFuel_empty_rep_eq_join (pat : List Char) :
    ∀ (fuel : Nat) (s : List Char),
      pyReplaceFuel pat [] fuel s = joinAll (splitOnPat pat fuel s) := by
  intro fuel
  induction fuel with
  | zero => intro s; simp [pyReplaceFuel, splitOnPat, joinAll]
  | succ n ih =>
    intro s
    cases s with
    | nil => simp [pyReplaceFuel, splitOnPat, joinAll]
    | cons c cs =>
      by_cases hp : List.take pat.length (c :: cs) = pat ∧ pat ≠ []
      · simp [pyReplaceFuel, splitOnPat, hp, joinAll, ih]
      · simp only [pyReplaceFuel, splitOnPat, if_neg hp]
        cases hsp : splitOnPat pat n cs with
        | nil => simp [joinAll, ih, hsp]
        | cons hh tt => simp [joinAll, ih, hsp]

/-- C7, amended: the slug is the player's name with EVERY occurrence of the
substring " Jr." removed (not only a trailing suffix), lowercased, spaces
hyphenated; the two examples of the claim do hold. -/
theorem c7_slug_removes_every_occurrence :
    (∀ name : String, hoopshypeSlug name = slugAllOccurrences name)
    ∧ hoopshypeSlug "James Harden" = "james-harden"
    ∧ hoopshypeSlug "Wendell Carter Jr." = "wendell-carter" := by
  refine ⟨?_, by decide, by decide⟩
  intro name
  unfold hoopshypeSlug slugAllOccurrences pyReplace
  rw [pyReplaceFuel_empty_rep_eq_join]

theorem colIdx_lt {cols : List String} {c : String} {i : Nat}
    (h : colIdx cols c = some i) : i < cols.length := by
  induction cols generalizing i with
  | nil => simp [colIdx] at h
  | cons c' cs ih =>
    by_cases e : c' = c
    · simp only [colIdx, if_pos e, Option.some.injEq] at h
      subst h
      simp
    · simp only [colIdx, if_neg e] at h
      cases hj : colIdx cs c with
      | none => rw [hj] at h; simp at h
      | some j =>
        rw [hj] at h
        simp only [Option.map_some', Option.some.injEq] at h
        subst h
        have := ih hj
        simp only [List.length_cons]
        omega

theorem colIdx_getD {cols : List String} {c : String} {i : Nat}
    (h : colIdx cols c = some i) : cols.getD i "" = c := by
  induction cols generalizing i with
  | nil => simp [colIdx] at h
  | cons c' cs ih =>
    by_cases e : c' = c
    · simp only [colIdx, if_pos e, Option.some.injEq] at h
      subst h
      simpa using e
    · simp only [colIdx, if_neg e] at h
      cases hj : colIdx cs c with
      | none => rw [hj] at h; simp at h
      | some j =>
        rw [hj] at h
        simp only [Option.map_some', Option.some.injEq] at h
        subst h
        simpa using ih hj

theorem colIdx_mem {cols : List String} {c : String} {i : Nat}
    (h : colIdx cols c = some i) : c ∈ cols := by
  have h1 := colIdx_lt h
  have h2 := colIdx_getD h
  rw [← h2, List.getD_eq_getElem?_getD, List.getElem?_eq_getElem h1]
  simp

theorem colIdx_isSome_of_mem {cols : List String} {c : String} (h : c ∈ cols) :
    ∃ i, colIdx cols c = some i := by
  induction cols with
  | nil => simp at h
  | cons c' cs ih =>
    by_cases e : c' = c
    · exact ⟨0, by simp [colIdx, e]⟩
    · have hc : c ∈ cs := by
        rcases List.mem_cons.mp h with h' | h'
        · exact absurd h'.symm e
        · exact h'
      obtain ⟨j, hj⟩ := ih hc
      exact ⟨j + 1, by simp [colIdx, e, hj]⟩

theorem colIdx_append_self {cols : List String} {c : String}
    (h : colIdx cols c = none) : colIdx (cols ++ [c]) c = some cols.length := by
  induction cols with
  | nil => simp [colIdx]
  | cons c' cs ih =>
    by_cases e : c' = c
    · simp [colIdx, if_pos e] at h
    · simp only [colIdx, if_neg e] at h
      cases hj : colIdx cs c with
      | some j => rw [hj] at h; simp at h
      | none =>
        simp only [List.cons_append, colIdx, if_neg e, List.length_cons,
          List.append_eq]
        rw [ih hj]
        rfl

theorem getD_set_self {α : Type} (l : List α) (i : Nat) (v d : α)
    (h : i < l.length) : (l.set i v).getD i d = v := by
  simp [List.getD_eq_getElem?_getD, List.getElem?_set_self', List.getElem?_eq_getElem h]

theorem getD_append_self {α : Type} (l : List α) (v d : α) :
    (l ++ [v]).getD l.length d = v := by
  simp [List.getD_eq_getElem?_getD]

theorem getD_map_of_lt {α β : Type} (l : List α) (f : α → β) (i : Nat) (d : β)
    (d' : α) (h : i < l.length) : (l.map f).getD i d = f (l.getD i d') := by
  simp [List.getD_eq_getElem?_getD, List.getElem?_eq_getElem h, List.getElem?_map]

theorem setColumn_col_mem (t : Table) (c : String) (v : Option Value) :
    c ∈ (setColumn t c v).cols := by
  cases h : colIdx t.cols c with
  | none => simp [setColumn, h]
  | some i =>
    simp only [setColumn, h]
    exact colIdx_mem h

theorem setColumn_lookup (t : Table) (c : String) (v : Option Value)
    (hwf : t.WF) :
    ∀ r ∈ (setColumn t c v).rows, getCell (setColumn t c v).cols r c = some v := by
  intro r hr
  cases h : colIdx t.cols c with
  | some i =>
    simp only [setColumn, h] at hr ⊢
    obtain ⟨r₀, hr₀, rfl⟩ := List.mem_map.mp hr
    unfold getCell
    rw [h]
    simp only [Option.map_some', Option.some.injEq]
    exact getD_set_self r₀ i v none (by rw [hwf r₀ hr₀]; exact colIdx_lt h)
  | none =>
    simp only [setColumn, h] at hr ⊢
    obtain ⟨r₀, hr₀, rfl⟩ := List.mem_map.mp hr
    unfold getCell
    rw [colIdx_append_self h]
    simp only [Option.map_some', Option.some.injEq]
    rw [← hwf r₀ hr₀]
    exact getD_append_self r₀ v none

theorem mem_addCols_left {c : String} :
    ∀ (cs acc : List String), c ∈ acc → c ∈ addCols acc cs := by
  intro cs
  induction cs with
  | nil => intro acc h; simpa [addCols] using h
  | cons c' cs' ih =>
    intro acc h
    simp only [addCols]
    apply ih
    split
    · exact h
    · exact List.mem_append_left _ h

theorem mem_addCols_self {c : String} :
    ∀ (cs acc : List String), c ∈ cs → c ∈ addCols acc cs := by
  intro cs
  induction cs with
  | nil => intro acc h; simp at h
  | cons c' cs' ih =>
    intro acc h
    rcases List.mem_cons.mp h with rfl | h'
    · simp only [addCols]
      apply mem_addCols_left
      split
      · next hc => simpa using hc
      · exact List.mem_append_right _ (List.mem_singleton_self _)
    · simp only [addCols]
      exact ih _ h'

theorem unionCols_go_left {c : String} :
    ∀ (ls : List (List String)) (acc : List String),
      c ∈ acc → c ∈ unionCols.go acc ls := by
  intro ls
  induction ls with
  | nil => intro acc h; simpa [unionCols.go] using h
  | cons l ls' ih =>
    intro acc h
    simp only [unionCols.go]
    exact ih _ (mem_addCols_left _ _ h)

theorem unionCols_go_mem {c : String} :
    ∀ (ls : List (List String)) (acc l : List String),
      l ∈ ls → c ∈ l → c ∈ unionCols.go acc ls := by
  intro ls
  induction ls with
  | nil => intro acc l h _; simp at h
  | cons l₀ ls' ih =>
    intro acc l hl hc
    rcases List.mem_cons.mp hl with rfl | h'
    · simp only [unionCols.go]
      exact unionCols_go_left _ _ (mem_addCols_self _ _ hc)
    · simp only [unionCols.go]
      exact ih _ _ h' hc

theorem mem_unionCols {c : String} {l : List String} {ls : List (List String)}
    (hl : l ∈ ls) (hc : c ∈ l) : c ∈ unionCols ls := by
  cases ls with
  | nil => simp at hl
  | cons l₀ ls' =>
    rcases List.mem_cons.mp hl with rfl | h'
    · simp only [unionCols]
      exact unionCols_go_left _ _ (mem_addCols_self _ _ hc)
    · simp only [unionCols]
      exact unionCols_go_mem _ _ _ h' hc

theorem getCell_some_elim {cols : List String} {r : Row} {c : String}
    {v : Option Value} (h : getCell cols r c = some v) :
    ∃ i, colIdx cols c = some i ∧ r.getD i none = v := by
  unfold getCell at h
  cases hj : colIdx cols c with
  | none => rw [hj] at h; simp at h
  | some i =>
    rw [hj] at h
    simp only [Option.map_some', Option.some.injEq] at h
    exact ⟨i, rfl, h⟩

theorem reindex_lookup (oldCols U : List String) (r : Row) (c : String) (i : Nat)
    (hU : c ∈ U) (hold : colIdx oldCols c = some i) :
    getCell U (reindexRow oldCols U r) c = some (r.getD i none) := by
  obtain ⟨j, hj⟩ := colIdx_isSome_of_mem hU
  unfold getCell reindexRow
  rw [hj]
  simp only [Option.map_some', Option.some.injEq]
  rw [getD_map_of_lt _ _ _ _ "" (colIdx_lt hj)]
  simp only [colIdx_getD hj, hold]

theorem finishTable_rows_mem (acc : List Table) (row : Row)
    (hrow : row ∈ (finishTable acc).rows) :
    (finishTable acc).cols = unionCols (acc.map Table.cols)
    ∧ ∃ t ∈ acc, ∃ r ∈ t.rows,
        row = reindexRow t.cols (unionCols (acc.map Table.cols)) r := by
  unfold finishTable at hrow ⊢
  cases hacc : acc.isEmpty with
  | true => simp [hacc] at hrow
  | false =>
    simp only [hacc, Bool.false_eq_true, if_false] at hrow ⊢
    refine ⟨rfl, ?_⟩
    simp only [concatTables] at hrow
    obtain ⟨t, ht, hx⟩ := List.mem_flatMap.mp hrow
    obtain ⟨r, hr, rfl⟩ := List.mem_map.mp hx
    exact ⟨t, ht, r, hr, rfl⟩

theorem finishTable_lookup (acc : List Table) (t : Table) (r row : Row)
    (key : String) (v : Option Value) (ht : t ∈ acc)
    (hcell : getCell t.cols r key = some v)
    (hrowEq : row = reindexRow t.cols (unionCols (acc.map Table.cols)) r) :
    getCell (unionCols (acc.map Table.cols)) row key = some v := by
  obtain ⟨i, hold, hv⟩ := getCell_some_elim hcell
  subst hrowEq
  rw [reindex_lookup _ _ _ _ i
    (mem_unionCols (List.mem_map_of_mem Table.cols ht) (colIdx_mem hold)) hold, hv]

theorem idLoopGo_acc_mem (v : String) (f : Int → Except String Table)
    (roster : List Player) :
    ∀ t ∈ (idLoopGo v f roster).acc, ∃ p ∈ roster, ∃ t₀,
      f p.id = .ok t₀ ∧ t = setColumn t₀ "player_id" (some (.int p.id)) := by
  induction roster with
  | nil => simp [idLoopGo]
  | cons p ps ih =>
    intro t ht
    cases h : f p.id with
    | ok t' =>
      simp only [idLoopGo, h] at ht
      rcases List.mem_append.mp ht with h1 | h2
      · split at h1
        · simp at h1
        · rw [List.mem_singleton] at h1
          exact ⟨p, List.mem_cons_self _ _, t', h, h1⟩
      · obtain ⟨q, hq, t₀, hok, rfl⟩ := ih t h2
        exact ⟨q, List.mem_cons_of_mem _ hq, t₀, hok, rfl⟩
    | error e =>
      simp only [idLoopGo, h] at ht
      obtain ⟨q, hq, t₀, hok, rfl⟩ := ih t ht
      exact ⟨q, List.mem_cons_of_mem _ hq, t₀, hok, rfl⟩

theorem salariesGo_acc_mem (web : String → Except String SalaryPage)
    (roster : List Player) :
    ∀ t ∈ (salariesGo web roster).acc, ∃ p ∈ roster, ∃ t₀,
      (fetch_player_salaries web p.full_name).result = .ok t₀
      ∧ t = setColumn t₀ "full_name" (some (.str p.full_name)) := by
  induction roster with
  | nil => simp [salariesGo]
  | cons p ps ih =>
    intro t ht
    cases h : (fetch_player_salaries web p.full_name).result with
    | ok t' =>
      simp only [salariesGo, h] at ht
      rcases List.mem_append.mp ht with h1 | h2
      · split at h1
        · simp at h1
        · rw [List.mem_singleton] at h1
          exact ⟨p, List.mem_cons_self _ _, t', h, h1⟩
      · obtain ⟨q, hq, t₀, hok, rfl⟩ := ih t h2
        exact ⟨q, List.mem_cons_of_mem _ hq, t₀, hok, rfl⟩
    | error e =>
      simp only [salariesGo, h] at ht
      obtain ⟨q, hq, t₀, hok, rfl⟩ := ih t ht
      exact ⟨q, List.mem_cons_of_mem _ hq, t₀, hok, rfl⟩

theorem salaryRecsTable_WF (recs : List SalaryRec) :
    (salaryRecsTable recs).WF := by
  unfold salaryRecsTable Table.WF
  split
  · simp
  · intro r hr
    obtain ⟨x, _, rfl⟩ := List.mem_map.mp hr
    simp

theorem fetch_player_salaries_result_WF (web : String → Except String SalaryPage)
    (n : String) (t : Table)
    (h : (fetch_player_salaries web n).result = .ok t) : t.WF := by
  simp only [fetch_player_salaries] at h
  cases hw : web (salary_url n) with
  | error e => rw [hw] at h; simp [fetch_player_salaries_body] at h
  | ok pg =>
    rw [hw] at h
    simp only [fetch_player_salaries_body] at h
    cases hpl : pg.pastLabel with
    | false => rw [hpl] at h; simp at h
    | true =>
      rw [hpl] at h
      simp only [if_true] at h
      cases htab : pg.tableAfterLabel with
      | none =>
        rw [htab] at h
        simp only [Except.ok.injEq] at h
        subst h
        intro r hr
        simp at hr
      | some ht' =>
        rw [htab] at h
        dsimp only at h
        cases htb : ht'.tbody with
        | none => rw [htb] at h; simp at h
        | some trs =>
          rw [htb] at h
          dsimp only at h
          cases hp : parseSalaryRows trs with
          | error e => rw [hp] at h; simp at h
          | ok recs =>
            rw [hp] at h
            simp only [Except.ok.injEq] at h
            subst h
            exact salaryRecsTable_WF recs

theorem idLoop_rows_player_id (v : String) (f : Int → Except String Table)
    (roster : List Player) (hwf : ∀ i t, f i = .ok t → t.WF) :
    ∀ row ∈ (finishTable (idLoopGo v f roster).acc).rows,
      ∃ p ∈ roster,
        getCell (finishTable (idLoopGo v f roster).acc).cols row "player_id"
          = some (some (.int p.id)) := by
  intro row hrow
  obtain ⟨hcols, t, ht, r, hr, hre⟩ := finishTable_rows_mem _ _ hrow
  obtain ⟨p, hp, t₀, hok, rfl⟩ := idLoopGo_acc_mem v f roster t ht
  refine ⟨p, hp, ?_⟩
  rw [hcols]
  exact finishTable_lookup _ _ _ _ _ _ ht
    (setColumn_lookup t₀ _ _ (hwf _ _ hok) r hr) hre

theorem salLoop_rows_full_name (web : String → Except String SalaryPage)
    (roster : List Player) :
    ∀ row ∈ (finishTable (salariesGo web roster).acc).rows,
      ∃ p ∈ roster,
        getCell (finishTable (salariesGo web roster).acc).cols row "full_name"
          = some (some (.str p.full_name)) := by
  intro row hrow
  obtain ⟨hcols, t, ht, r, hr, hre⟩ := finishTable_rows_mem _ _ hrow
  obtain ⟨p, hp, t₀, hok, rfl⟩ := salariesGo_acc_mem web roster t ht
  refine ⟨p, hp, ?_⟩
  rw [hcols]
  exact finishTable_lookup _ _ _ _ _ _ ht
    (setColumn_lookup t₀ _ _ (fetch_player_salaries_result_WF web _ _ hok) r hr) hre

/-- C10: referential integrity of the accumulated frames — when the stats and
awards endpoints return rectangular frames (as pandas DataFrames are), every
row of the stats and awards accumulator carries the `player_id` of some
roster player, and every row of the salary accumulator carries the
`full_name` of some roster player. -/
theorem c10_referential_integrity :
    ∀ (fetchS fetchA : Int → Except String Table)
      (web : String → Except String SalaryPage) (roster : List Player),
      (∀ i t, fetchS i = .ok t → t.WF) →
      (∀ i t, fetchA i = .ok t → t.WF) →
      (∀ row ∈ (fetch_all_player_stats fetchS roster).table.rows,
        ∃ p ∈ roster,
          getCell (fetch_all_player_stats fetchS roster).table.cols row "player_id"
            = some (some (.int p.id)))
      ∧ (∀ row ∈ (fetch_all_player_awards fetchA roster).table.rows,
        ∃ p ∈ roster,
          getCell (fetch_all_player_awards fetchA roster).table.cols row "player_id"
            = some (some (.int p.id)))
      ∧ (∀ row ∈ (fetch_all_player_salaries web roster).table.rows,
        ∃ p ∈ roster,
          getCell (fetch_all_player_salaries web roster).table.cols row "full_name"
            = some (some (.str p.full_name))) := by
  intro fS fA web roster hS hA
  exact ⟨idLoop_rows_player_id "stats" fS roster hS,
         idLoop_rows_player_id "awards" fA roster hA,
         salLoop_rows_full_name web roster⟩

/-- C10, witness: the theorem applied to a two-player roster with concrete
rectangular stats/awards frames and a concrete salary page. -/
theorem c10_witness :
    (∀ row ∈ (fetch_all_player_stats c10FetchS c10Roster).table.rows,
      ∃ p ∈ c10Roster,
        getCell (fetch_all_player_stats c10FetchS c10Roster).table.cols row "player_id"
          = some (some (.int p.id)))
    ∧ (∀ row ∈ (fetch_all_player_awards c10FetchA c10Roster).table.rows,
      ∃ p ∈ c10Roster,
        getCell (fetch_all_player_awards c10FetchA c10Roster).table.cols row "player_id"
          = some (some (.int p.id)))
    ∧ (∀ row ∈ (fetch_all_player_salaries c10Web c10Roster).table.rows,
      ∃ p ∈ c10Roster,
        getCell (fetch_all_player_salaries c10Web c10Roster).table.cols row "full_name"
          = some (some (.str p.full_name))) :=
  c10_referential_integrity c10FetchS c10FetchA c10Web c10Roster
    (fun _ t h => by injection h with h; subst h; decide)
    (fun _ t h => by injection h with h; subst h; decide)

end NBA
